import Mathlib

/-!
Verification of the async NATS client core (`src/async-nats/src/lib.rs`).

A shallow embedding of the connection multiplexer of the async NATS client:
the framed-protocol codec (`Connection::try_read_op`, `Connection::read_op`,
`Connection::write_op`), the subscription registry (`SubscriptionContext`),
the event loop (`Connector::process`) and the client facade
(`Client::{publish, publish_with_reply, subscribe, flush}`).

Byte buffers (`BytesMut`, `Bytes`, `&[u8]`) are modelled as `List Nat`
(each element one byte, `< 256` for meaningful inputs); `u64`/`usize`
counters are modelled as `Nat` with overflow noted where it matters;
fallible paths return explicit result types, and a call of
`Option::unwrap`/`Result::unwrap` on `None`/`Err` is modelled as a
distinguished `panicked` outcome.
-/

namespace NatsCore

/-- ASCII bytes of a string literal.  Used only for ASCII literals occurring
in the source (`"MSG "`, `"PING\r\n"`, ...), where the UTF-8 encoding is the
identity on code points. -/
def strB (s : String) : List Nat := s.data.map Char.toNat

/-- `pre` is a byte-prefix of `buf`; models `&[u8]::starts_with`. -/
def startsWith : List Nat → List Nat → Bool
  | [], _ => true
  | _ :: _, [] => false
  | p :: ps, b :: bs => if p = b then startsWith ps bs else false

/-- Index of the first occurrence of the two-byte subslice `\r\n` (13, 10);
models `subslice::SubsliceExt::find(b"\r\n")` as used on the read buffer. -/
def findCrlf : List Nat → Option Nat
  | [] => none
  | [_] => none
  | a :: b :: t => if a = 13 ∧ b = 10 then some 0 else (findCrlf (b :: t)).map (· + 1)

/-- `l` contains no `\r\n` two-byte subslice. -/
def crlfFree : List Nat → Bool
  | [] => true
  | [_] => true
  | a :: b :: t => if a = 13 ∧ b = 10 then false else crlfFree (b :: t)

/-- Helper for `splitSpaces`: `acc` holds the bytes of the current token in
reverse. -/
def splitSpacesAux : List Nat → List Nat → List (List Nat)
  | acc, [] => if acc = [] then [] else [acc.reverse]
  | acc, b :: rest =>
    if b = 32 then
      if acc = [] then splitSpacesAux [] rest
      else acc.reverse :: splitSpacesAux [] rest
    else splitSpacesAux (b :: acc) rest

/-- Models `line.split(' ').filter(|s| !s.is_empty())` on the UTF-8 bytes of
`line`: the maximal non-empty runs of non-space bytes.  (A space byte `0x20`
is always a character boundary in valid UTF-8, so splitting the byte slice
agrees with splitting the decoded string.) -/
def splitSpaces (l : List Nat) : List (List Nat) := splitSpacesAux [] l

/-- ASCII decimal digit test. -/
def isDigit (b : Nat) : Bool := 48 ≤ b && b ≤ 57

/-- Fold a digit list into a value; `none` on a non-digit byte. -/
def parseDigits : Nat → List Nat → Option Nat
  | acc, [] => some acc
  | acc, b :: rest => if isDigit b then parseDigits (acc * 10 + (b - 48)) rest else none

/-- Models `u64::from_str` (and, on a 64-bit platform, `usize::from_str`) on
the UTF-8 bytes of a token: an optional leading `+`, then one or more ASCII
decimal digits, value at most `u64::MAX`.  Both the invalid-digit and the
overflow failure are observationally the same in the source (each is mapped
into an `io::Error` of kind `InvalidInput`), so both are `none` here. -/
def parseU64 (s : List Nat) : Option Nat :=
  let digits := match s with
    | 43 :: rest => rest
    | _ => s
  match digits with
  | [] => none
  | _ =>
    match parseDigits 0 digits with
    | none => none
    | some v => if v < 2 ^ 64 then some v else none

/-- A UTF-8 continuation byte. -/
def utf8Cont (b : Nat) : Bool := 128 ≤ b && b ≤ 191

/-- UTF-8 validity of a byte sequence, as checked by
`std::str::from_utf8` (RFC 3629: no overlong forms, no surrogate code
points, nothing above U+10FFFF). -/
def utf8Valid : List Nat → Bool
  | [] => true
  | b :: rest =>
    if b ≤ 127 then utf8Valid rest
    else if 194 ≤ b && b ≤ 223 then
      match rest with
      | b1 :: r => utf8Cont b1 && utf8Valid r
      | [] => false
    else if b = 224 then
      match rest with
      | b1 :: b2 :: r => (160 ≤ b1 && b1 ≤ 191) && utf8Cont b2 && utf8Valid r
      | _ => false
    else if (225 ≤ b && b ≤ 236) || b = 238 || b = 239 then
      match rest with
      | b1 :: b2 :: r => utf8Cont b1 && utf8Cont b2 && utf8Valid r
      | _ => false
    else if b = 237 then
      match rest with
      | b1 :: b2 :: r => (128 ≤ b1 && b1 ≤ 159) && utf8Cont b2 && utf8Valid r
      | _ => false
    else if b = 240 then
      match rest with
      | b1 :: b2 :: b3 :: r => (144 ≤ b1 && b1 ≤ 191) && utf8Cont b2 && utf8Cont b3 && utf8Valid r
      | _ => false
    else if 241 ≤ b && b ≤ 243 then
      match rest with
      | b1 :: b2 :: b3 :: r => utf8Cont b1 && utf8Cont b2 && utf8Cont b3 && utf8Valid r
      | _ => false
    else if b = 244 then
      match rest with
      | b1 :: b2 :: b3 :: r => (128 ≤ b1 && b1 ≤ 143) && utf8Cont b2 && utf8Cont b3 && utf8Valid r
      | _ => false
    else false

end NatsCore

namespace NatsCore

/-! ## JSON model

`Connection::try_read_op` parses the INFO payload with
`serde_json::from_str::<ServerInfo>`.  The external `serde_json` crate is
modelled here by a JSON syntax parser over bytes plus a typed extraction of
the `ServerInfo` fields (all of which carry `#[serde(default)]`, so missing
fields take defaults, unknown fields are ignored, duplicate known fields
and type mismatches are errors).  Numbers record their sign, integral
mantissa, and whether a fraction/exponent made them floating point; a
float never deserializes into an integer field. -/

inductive Json where
  | null : Json
  | jbool : Bool → Json
  | jnum : Bool → Nat → Bool → Json
  | jstr : List Nat → Json
  | jarr : List Json → Json
  | jobj : List (List Nat × Json) → Json

/-- Drop JSON whitespace (space, tab, line feed, carriage return). -/
def skipWs : List Nat → List Nat
  | b :: rest =>
    if b = 32 || b = 9 || b = 10 || b = 13 then skipWs rest else b :: rest
  | [] => []

/-- Value of an ASCII hex digit. -/
def hexVal (b : Nat) : Option Nat :=
  if 48 ≤ b && b ≤ 57 then some (b - 48)
  else if 97 ≤ b && b ≤ 102 then some (b - 87)
  else if 65 ≤ b && b ≤ 70 then some (b - 55)
  else none

/-- Four hex digits as in a `\uXXXX` escape. -/
def parseHex4 : List Nat → Option (Nat × List Nat)
  | a :: b :: c :: d :: rest =>
    match hexVal a, hexVal b, hexVal c, hexVal d with
    | some x, some y, some z, some w => some (((x * 16 + y) * 16 + z) * 16 + w, rest)
    | _, _, _, _ => none
  | _ => none

/-- UTF-8 encoding of a code point. -/
def utf8Encode (c : Nat) : List Nat :=
  if c < 128 then [c]
  else if c < 2048 then [192 + c / 64, 128 + c % 64]
  else if c < 65536 then [224 + c / 4096, 128 + c / 64 % 64, 128 + c % 64]
  else [240 + c / 262144, 128 + c / 4096 % 64, 128 + c / 64 % 64, 128 + c % 64]

/-- Body of a JSON string after the opening quote: returns the unescaped
content bytes and the input after the closing quote.  Escapes are the JSON
ones; a `\uXXXX` high surrogate must be followed by a `\uXXXX` low
surrogate; raw control bytes are rejected. -/
def parseStrBody : Nat → List Nat → Option (List Nat × List Nat)
  | 0, _ => none
  | _, [] => none
  | fuel + 1, b :: rest =>
    if b = 34 then some ([], rest)
    else if b = 92 then
      match rest with
      | [] => none
      | e :: rest1 =>
        if e = 34 || e = 92 || e = 47 then
          (parseStrBody fuel rest1).map (fun p => (e :: p.1, p.2))
        else if e = 98 then (parseStrBody fuel rest1).map (fun p => (8 :: p.1, p.2))
        else if e = 102 then (parseStrBody fuel rest1).map (fun p => (12 :: p.1, p.2))
        else if e = 110 then (parseStrBody fuel rest1).map (fun p => (10 :: p.1, p.2))
        else if e = 114 then (parseStrBody fuel rest1).map (fun p => (13 :: p.1, p.2))
        else if e = 116 then (parseStrBody fuel rest1).map (fun p => (9 :: p.1, p.2))
        else if e = 117 then
          match parseHex4 rest1 with
          | none => none
          | some (cp, rest2) =>
            if 55296 ≤ cp && cp ≤ 56319 then
              match rest2 with
              | 92 :: 117 :: rest3 =>
                match parseHex4 rest3 with
                | none => none
                | some (lo, rest4) =>
                  if 56320 ≤ lo && lo ≤ 57343 then
                    (parseStrBody fuel rest4).map
                      (fun p => (utf8Encode (65536 + (cp - 55296) * 1024 + (lo - 56320)) ++ p.1, p.2))
                  else none
              | _ => none
            else if 56320 ≤ cp && cp ≤ 57343 then none
            else (parseStrBody fuel rest2).map (fun p => (utf8Encode cp ++ p.1, p.2))
        else none
    else if b < 32 then none
    else (parseStrBody fuel rest).map (fun p => (b :: p.1, p.2))

/-- Integer part of a JSON number: `0`, or a nonzero digit followed by
digits (no leading zeros). -/
def parseIntPart : List Nat → Option (Nat × List Nat)
  | [] => none
  | b :: rest =>
    if b = 48 then
      match rest with
      | c :: _ => if isDigit c then none else some (0, rest)
      | [] => some (0, [])
    else if isDigit b then
      let ds := rest.takeWhile (fun x => isDigit x)
      some (ds.foldl (fun a d => a * 10 + (d - 48)) (b - 48), rest.dropWhile (fun x => isDigit x))
    else none

/-- A JSON number: optional minus, integer part, optional fraction and
exponent.  Returns `(negative, mantissa, had fraction or exponent)`. -/
def parseNumber (s : List Nat) : Option ((Bool × Nat × Bool) × List Nat) :=
  let p := match s with
    | 45 :: r => (true, r)
    | _ => (false, s)
  match parseIntPart p.2 with
  | none => none
  | some (m, s2) =>
    let fr : Option (Bool × List Nat) := match s2 with
      | 46 :: r =>
        let ds := r.takeWhile (fun x => isDigit x)
        if ds = [] then none else some (true, r.dropWhile (fun x => isDigit x))
      | _ => some (false, s2)
    match fr with
    | none => none
    | some (isF, s3) =>
      let ex : Option (Bool × List Nat) := match s3 with
        | e :: r =>
          if e = 101 || e = 69 then
            let r1 := match r with
              | 43 :: r2 => r2
              | 45 :: r2 => r2
              | _ => r
            let ds := r1.takeWhile (fun x => isDigit x)
            if ds = [] then none else some (true, r1.dropWhile (fun x => isDigit x))
          else some (isF, s3)
        | [] => some (isF, s3)
      match ex with
      | none => none
      | some (isF2, s4) => some ((p.1, m, isF || isF2), s4)

mutual

/-- One JSON value (input already stripped of leading whitespace). -/
def parseVal : Nat → List Nat → Option (Json × List Nat)
  | 0, _ => none
  | fuel + 1, s =>
    match s with
    | [] => none
    | b :: rest =>
      if b = 110 then
        if startsWith [117, 108, 108] rest then some (.null, rest.drop 3) else none
      else if b = 116 then
        if startsWith [114, 117, 101] rest then some (.jbool true, rest.drop 3) else none
      else if b = 102 then
        if startsWith [97, 108, 115, 101] rest then some (.jbool false, rest.drop 4) else none
      else if b = 34 then
        (parseStrBody (rest.length + 1) rest).map (fun p => (.jstr p.1, p.2))
      else if b = 91 then
        parseArrItems fuel (skipWs rest)
      else if b = 123 then
        parseObjItems fuel (skipWs rest)
      else
        (parseNumber s).map (fun p => (.jnum p.1.1 p.1.2.1 p.1.2.2, p.2))

/-- Array items after `[` and whitespace: `]` or comma-separated values. -/
def parseArrItems : Nat → List Nat → Option (Json × List Nat)
  | 0, _ => none
  | fuel + 1, s =>
    match s with
    | 93 :: rest => some (.jarr [], rest)
    | _ =>
      match parseVal fuel s with
      | none => none
      | some (v, s1) =>
        match parseArrRest fuel [v] (skipWs s1) with
        | none => none
        | some (vs, s2) => some (.jarr vs, s2)

/-- After one array item: `]` ends, `,` continues.  `acc` holds the items
parsed so far in reverse. -/
def parseArrRest : Nat → List Json → List Nat → Option (List Json × List Nat)
  | 0, _, _ => none
  | fuel + 1, acc, s =>
    match s with
    | 93 :: rest => some (acc.reverse, rest)
    | 44 :: rest =>
      match parseVal fuel (skipWs rest) with
      | none => none
      | some (v, s1) => parseArrRest fuel (v :: acc) (skipWs s1)
    | _ => none

/-- Object members after `{` and whitespace: `}` or comma-separated
`"key": value` pairs. -/
def parseObjItems : Nat → List Nat → Option (Json × List Nat)
  | 0, _ => none
  | fuel + 1, s =>
    match s with
    | 125 :: rest => some (.jobj [], rest)
    | _ =>
      match parseMember fuel s with
      | none => none
      | some (kv, s1) =>
        match parseObjRest fuel [kv] (skipWs s1) with
        | none => none
        | some (kvs, s2) => some (.jobj kvs, s2)

/-- One `"key": value` member (input at the opening quote of the key). -/
def parseMember : Nat → List Nat → Option ((List Nat × Json) × List Nat)
  | 0, _ => none
  | fuel + 1, s =>
    match s with
    | 34 :: rest =>
      match parseStrBody (rest.length + 1) rest with
      | none => none
      | some (k, s1) =>
        match skipWs s1 with
        | 58 :: s2 =>
          match parseVal fuel (skipWs s2) with
          | none => none
          | some (v, s3) => some ((k, v), s3)
        | _ => none
    | _ => none

/-- After one object member: `}` ends, `,` continues. -/
def parseObjRest : Nat → List (List Nat × Json) → List Nat → Option (List (List Nat × Json) × List Nat)
  | 0, _, _ => none
  | fuel + 1, acc, s =>
    match s with
    | 125 :: rest => some (acc.reverse, rest)
    | 44 :: rest =>
      match parseMember fuel (skipWs rest) with
      | none => none
      | some (kv, s1) => parseObjRest fuel (kv :: acc) (skipWs s1)
    | _ => none

end

/-- Parse a complete JSON document: one value with only whitespace around
it, as `serde_json::from_str` requires. -/
def jsonParse (s : List Nat) : Option Json :=
  let s1 := skipWs s
  match parseVal (2 * s1.length + 8) s1 with
  | none => none
  | some (v, rest) => if skipWs rest = [] then some v else none

end NatsCore

namespace NatsCore

/-- The `ServerInfo` handshake descriptor (`struct ServerInfo` in the
source); strings are UTF-8 byte lists, `port` is `u16`, `max_payload` is
`usize`, `proto` is `i8`, `client_id` is `u64`. -/
structure ServerInfoM where
  server_id : List Nat
  server_name : List Nat
  host : List Nat
  port : Nat
  version : List Nat
  auth_required : Bool
  tls_required : Bool
  max_payload : Nat
  proto : Int
  client_id : Nat
  go : List Nat
  nonce : List Nat
  connect_urls : List (List Nat)
  client_ip : List Nat
  headers : Bool
  lame_duck_mode : Bool
deriving DecidableEq

/-- `Default::default()` for every field, as `#[serde(default)]` supplies. -/
def ServerInfoM.default : ServerInfoM :=
  ⟨[], [], [], 0, [], false, false, 0, 0, 0, [], [], [], [], false, false⟩

/-- Deserialize a JSON value into a string field. -/
def asStr : Json → Option (List Nat)
  | .jstr s => some s
  | _ => none

/-- Deserialize a JSON value into a bool field. -/
def asBool : Json → Option Bool
  | .jbool b => some b
  | _ => none

/-- Deserialize a JSON value into an unsigned integer field bounded by
`bound` (exclusive); floats and negative numbers are type errors. -/
def asUInt (bound : Nat) : Json → Option Nat
  | .jnum neg m isFloat =>
    if neg = false && isFloat = false && m < bound then some m else none
  | _ => none

/-- Deserialize a JSON value into an `i8` field. -/
def asI8 : Json → Option Int
  | .jnum neg m isFloat =>
    if isFloat then none
    else
      let v : Int := if neg then -(m : Int) else (m : Int)
      if -128 ≤ v ∧ v ≤ 127 then some v else none
  | _ => none

/-- Deserialize a JSON value into a `Vec<String>` field. -/
def asStrArr : Json → Option (List (List Nat))
  | .jarr xs => xs.mapM asStr
  | _ => none

/-- Apply one object member to the partially built `ServerInfo`.  `seen`
lists the known field names already consumed; a duplicate known field or a
type mismatch is an error, an unknown field is ignored. -/
def applyField (st : ServerInfoM × List (List Nat)) (k : List Nat) (v : Json) :
    Option (ServerInfoM × List (List Nat)) :=
  let si := st.1
  let seen := st.2
  let dup : Bool := seen.contains k
  if k = strB "server_id" then
    if dup then none else (asStr v).map (fun x => ({ si with server_id := x }, k :: seen))
  else if k = strB "server_name" then
    if dup then none else (asStr v).map (fun x => ({ si with server_name := x }, k :: seen))
  else if k = strB "host" then
    if dup then none else (asStr v).map (fun x => ({ si with host := x }, k :: seen))
  else if k = strB "port" then
    if dup then none else (asUInt (2 ^ 16) v).map (fun x => ({ si with port := x }, k :: seen))
  else if k = strB "version" then
    if dup then none else (asStr v).map (fun x => ({ si with version := x }, k :: seen))
  else if k = strB "auth_required" then
    if dup then none else (asBool v).map (fun x => ({ si with auth_required := x }, k :: seen))
  else if k = strB "tls_required" then
    if dup then none else (asBool v).map (fun x => ({ si with tls_required := x }, k :: seen))
  else if k = strB "max_payload" then
    if dup then none else (asUInt (2 ^ 64) v).map (fun x => ({ si with max_payload := x }, k :: seen))
  else if k = strB "proto" then
    if dup then none else (asI8 v).map (fun x => ({ si with proto := x }, k :: seen))
  else if k = strB "client_id" then
    if dup then none else (asUInt (2 ^ 64) v).map (fun x => ({ si with client_id := x }, k :: seen))
  else if k = strB "go" then
    if dup then none else (asStr v).map (fun x => ({ si with go := x }, k :: seen))
  else if k = strB "nonce" then
    if dup then none else (asStr v).map (fun x => ({ si with nonce := x }, k :: seen))
  else if k = strB "connect_urls" then
    if dup then none else (asStrArr v).map (fun x => ({ si with connect_urls := x }, k :: seen))
  else if k = strB "client_ip" then
    if dup then none else (asStr v).map (fun x => ({ si with client_ip := x }, k :: seen))
  else if k = strB "headers" then
    if dup then none else (asBool v).map (fun x => ({ si with headers := x }, k :: seen))
  else if k = strB "lame_duck_mode" then
    if dup then none else (asBool v).map (fun x => ({ si with lame_duck_mode := x }, k :: seen))
  else some (si, seen)

/-- Fold the members of the JSON object into a `ServerInfo`. -/
def applyFields : ServerInfoM × List (List Nat) → List (List Nat × Json) → Option ServerInfoM
  | st, [] => some st.1
  | st, (k, v) :: rest =>
    match applyField st k v with
    | none => none
    | some st1 => applyFields st1 rest

/-- Models `serde_json::from_str::<ServerInfo>` on the bytes of the INFO
payload: parse one JSON document, require a top-level object, extract the
typed fields with defaults. -/
def parseServerInfo (line : List Nat) : Option ServerInfoM :=
  match jsonParse line with
  | some (.jobj fields) => applyFields (ServerInfoM.default, []) fields
  | _ => none

end NatsCore

namespace NatsCore

/-- The distinct `io::Error` payloads produced by `Connection::try_read_op`
(every one has kind `InvalidInput`). -/
inductive PErr where
  /-- invalid UTF-8 between `INFO ` and the terminating `\r\n` -/
  | badUtf8 : PErr
  /-- `serde_json` failed on the INFO payload -/
  | badJson : PErr
  /-- "invalid number of arguments after MSG" -/
  | badMsgArgs : PErr
  /-- `u64::from_str` on the sid or `usize::from_str` on the byte count failed -/
  | badInt : PErr
deriving DecidableEq

/-- `enum ServerOp` from the source.  `Message.payload` is the raw bytes. -/
inductive ServerOpM where
  | ok : ServerOpM
  | info : ServerInfoM → ServerOpM
  | ping : ServerOpM
  | pong : ServerOpM
  | message : Nat → List Nat → Option (List Nat) → List Nat → ServerOpM
deriving DecidableEq

/-- Outcome of parsing the bytes between `MSG ` and the terminating
`\r\n`. -/
inductive MsgParse where
  /-- `std::str::from_utf8(..).unwrap()` panicked on invalid UTF-8 -/
  | panicked : MsgParse
  | err : PErr → MsgParse
  /-- subject, sid, optional reply, declared payload byte count -/
  | parsed : List Nat → Nat → Option (List Nat) → Nat → MsgParse
deriving DecidableEq

/-- The MSG header line parse of `try_read_op`: decode UTF-8 (by `unwrap`,
so invalid UTF-8 panics), split on spaces dropping empty tokens, match
`<subject> <sid> <#bytes>` or `<subject> <sid> <reply> <#bytes>`, then
parse `sid` as `u64` and `#bytes` as `usize`. -/
def parseMsgLine (line : List Nat) : MsgParse :=
  if utf8Valid line = false then .panicked
  else
    match splitSpaces line with
    | [subject, sid, payloadLen] =>
      match parseU64 sid with
      | none => .err .badInt
      | some s =>
        match parseU64 payloadLen with
        | none => .err .badInt
        | some n => .parsed subject s none n
    | [subject, sid, replyTo, payloadLen] =>
      match parseU64 sid with
      | none => .err .badInt
      | some s =>
        match parseU64 payloadLen with
        | none => .err .badInt
        | some n => .parsed subject s (some replyTo) n
    | _ => .err .badMsgArgs

/-- Result of `Connection::try_read_op`.  The second component of `error`
and `ok` is the read buffer after the call (`try_read_op` holds
`&mut self` and advances the buffer only when it returns a complete
operation). -/
inductive PResult where
  /-- the `unwrap` in the MSG branch panicked -/
  | panicked : PResult
  | error : PErr → List Nat → PResult
  /-- `Ok(Some op)` with the remaining buffer, or `Ok(None)` ("need more
  data") with the buffer untouched -/
  | ok : Option (ServerOpM × List Nat) → List Nat → PResult
deriving DecidableEq

/-- `Connection::try_read_op` on the current read buffer. -/
def tryReadOp (buffer : List Nat) : PResult :=
  if startsWith (strB "+OK\r\n") buffer then
    .ok (some (.ok, buffer.drop 5)) (buffer.drop 5)
  else if startsWith (strB "PING\r\n") buffer then
    .ok (some (.ping, buffer.drop 6)) (buffer.drop 6)
  else if startsWith (strB "PONG\r\n") buffer then
    .ok (some (.pong, buffer.drop 6)) (buffer.drop 6)
  else if startsWith (strB "INFO ") buffer then
    match findCrlf buffer with
    | none => .ok none buffer
    | some len =>
      let line := (buffer.take len).drop 5
      if utf8Valid line then
        match parseServerInfo line with
        | some si => .ok (some (.info si, buffer.drop (len + 2))) (buffer.drop (len + 2))
        | none => .error .badJson buffer
      else .error .badUtf8 buffer
  else if startsWith (strB "MSG ") buffer then
    match findCrlf buffer with
    | none => .ok none buffer
    | some len =>
      match parseMsgLine ((buffer.take len).drop 4) with
      | .panicked => .panicked
      | .err e => .error e buffer
      | .parsed subject sid replyTo payloadLen =>
        -- "Only advance if there is enough data for the entire operation
        -- and payload remaining."
        if len + payloadLen + 4 ≤ buffer.length then
          let after := buffer.drop (len + 2)
          .ok (some (.message sid subject replyTo (after.take payloadLen),
                     after.drop (payloadLen + 2)))
            (after.drop (payloadLen + 2))
        else .ok none buffer
  else .ok none buffer

/-- Result of `Connection::read_op`. -/
inductive ReadRes where
  | panicked : ReadRes
  /-- `Err` carrying a parse error -/
  | perr : PErr → ReadRes
  /-- `Ok(Some op)`, with the buffer left for the next call -/
  | op : ServerOpM → List Nat → ReadRes
  /-- `Ok(None)`: a read returned zero bytes while the buffer was empty -/
  | eof : ReadRes
  /-- `Err(ConnectionReset)`: zero bytes read while the buffer was non-empty -/
  | connReset : ReadRes
  /-- the socket never yields again; the await never completes -/
  | pending : ReadRes
deriving DecidableEq

/-- `Connection::read_op`: loop `try_read_op`, reading more bytes from the
socket whenever the parser needs more data.  `chunks` is the sequence of
byte chunks successive `read_buf` calls return (`[]` models a zero-byte
read, i.e. the peer closed the stream). -/
def readOp : List Nat → List (List Nat) → ReadRes
  | buffer, [] =>
    match tryReadOp buffer with
    | .panicked => .panicked
    | .error e _ => .perr e
    | .ok (some (o, rest)) _ => .op o rest
    | .ok none _ => .pending
  | buffer, c :: rest =>
    match tryReadOp buffer with
    | .panicked => .panicked
    | .error e _ => .perr e
    | .ok (some (o, r)) _ => .op o r
    | .ok none _ =>
      if c = [] then
        if buffer = [] then .eof else .connReset
      else readOp (buffer ++ c) rest

end NatsCore

namespace NatsCore

/-- ASCII decimal rendering of a counter (`itoa`/`format!("{}", n)`). -/
def natDec (n : Nat) : List Nat := (Nat.toDigits 10 n).map Char.toNat

/-- `enum Protocol`: serialized (via `serde_repr`) as the number 0 or 1. -/
inductive ProtocolM where
  | original : ProtocolM
  | dynamic : ProtocolM
deriving DecidableEq

/-- `struct ConnectInfo`, fields in source declaration order (the order
`serde_json::to_string` emits them in). -/
structure ConnectInfoM where
  verbose : Bool
  pedantic : Bool
  user_jwt : Option (List Nat)
  nkey : Option (List Nat)
  signature : Option (List Nat)
  name : Option (List Nat)
  echo : Bool
  lang : List Nat
  version : List Nat
  protocol : ProtocolM
  tls_required : Bool
  user : Option (List Nat)
  pass : Option (List Nat)
  auth_token : Option (List Nat)
  headers : Bool
  no_responders : Bool
deriving DecidableEq

/-- JSON escaping of one byte of a string value, as `serde_json` emits it. -/
def escByte (b : Nat) : List Nat :=
  if b = 34 then [92, 34]
  else if b = 92 then [92, 92]
  else if b = 8 then [92, 98]
  else if b = 9 then [92, 116]
  else if b = 10 then [92, 110]
  else if b = 12 then [92, 102]
  else if b = 13 then [92, 114]
  else if b < 32 then
    [92, 117, 48, 48,
     (if b / 16 < 10 then 48 + b / 16 else 87 + b / 16),
     (if b % 16 < 10 then 48 + b % 16 else 87 + b % 16)]
  else [b]

/-- A JSON string literal for the bytes `s`. -/
def jsonEscStr (s : List Nat) : List Nat := 34 :: (s.map escByte).flatten ++ [34]

/-- `true`/`false`. -/
def jsonOfBool (b : Bool) : List Nat := if b then strB "true" else strB "false"

/-- An `Option<String>` field: `null` or a string literal (no
`skip_serializing_if` attributes on `ConnectInfo`). -/
def jsonOfOptStr : Option (List Nat) → List Nat
  | none => strB "null"
  | some s => jsonEscStr s

/-- `serde_json::to_string(&connect_info)`: the fields in declaration
order. -/
def connectJson (ci : ConnectInfoM) : List Nat :=
  strB "\x7b\"verbose\":" ++ jsonOfBool ci.verbose ++
  strB ",\"pedantic\":" ++ jsonOfBool ci.pedantic ++
  strB ",\"user_jwt\":" ++ jsonOfOptStr ci.user_jwt ++
  strB ",\"nkey\":" ++ jsonOfOptStr ci.nkey ++
  strB ",\"signature\":" ++ jsonOfOptStr ci.signature ++
  strB ",\"name\":" ++ jsonOfOptStr ci.name ++
  strB ",\"echo\":" ++ jsonOfBool ci.echo ++
  strB ",\"lang\":" ++ jsonEscStr ci.lang ++
  strB ",\"version\":" ++ jsonEscStr ci.version ++
  strB ",\"protocol\":" ++ (match ci.protocol with
    | .original => [48]
    | .dynamic => [49]) ++
  strB ",\"tls_required\":" ++ jsonOfBool ci.tls_required ++
  strB ",\"user\":" ++ jsonOfOptStr ci.user ++
  strB ",\"pass\":" ++ jsonOfOptStr ci.pass ++
  strB ",\"auth_token\":" ++ jsonOfOptStr ci.auth_token ++
  strB ",\"headers\":" ++ jsonOfBool ci.headers ++
  strB ",\"no_responders\":" ++ jsonOfBool ci.no_responders ++
  strB "\x7d"

/-- `enum ClientOp`.  The `Flush` variant's `oneshot::Sender<io::Result<()>>`
completion channel is not carried in the model; its only observable on the
wire side is the flush the event loop performs (see `writeOp`). -/
inductive ClientOpM where
  | publish : List Nat → List Nat → Option (List Nat) → ClientOpM
  | subscribe : Nat → List Nat → ClientOpM
  | unsubscribe : Nat → ClientOpM
  | ping : ClientOpM
  | pong : ClientOpM
  | flushCmd : ClientOpM
  | tryFlush : ClientOpM
  | connect : ConnectInfoM → ClientOpM
deriving DecidableEq

/-- One observable action on the buffered writer: a `write_all` of some
bytes, or a `flush`. -/
inductive WEv where
  | w : List Nat → WEv
  | flush : WEv
deriving DecidableEq

/-- `Connection::write_op`: the sequence of `write_all` and `flush` calls
performed for one client operation, in order. -/
def writeOp : ClientOpM → List WEv
  | .connect ci => [.w (strB "CONNECT " ++ connectJson ci ++ strB "\r\n")]
  | .publish subject payload respond =>
    [.w (strB "PUB "), .w subject, .w (strB " ")] ++
    (match respond with
     | some r => [.w r, .w (strB " ")]
     | none => []) ++
    [.w (natDec payload.length), .w (strB "\r\n"), .w payload, .w (strB "\r\n")]
  | .subscribe sid subject =>
    [.w (strB "SUB "), .w subject, .w (strB " " ++ natDec sid ++ strB "\r\n"), .flush]
  | .unsubscribe id => [.w (strB "UNSUB "), .w (natDec id ++ strB "\r\n")]
  | .ping => [.w (strB "PING\r\n"), .flush]
  | .pong => [.w (strB "PONG\r\n"), .flush]
  | .flushCmd => [.flush]
  | .tryFlush => [.flush]

/-- `struct Subscription` holds only the `mpsc::Sender<Message>` delivery
endpoint.  The handle itself is opaque to the registry logic, so the entry
is a bare token; whether the matching receiver is still open is a property
of the channel at delivery time and enters the event-loop model as part of
the delivery event. -/
structure SubscriptionM where
deriving DecidableEq

/-- First value stored under key `k`; models `HashMap::get`. -/
def lookupA (k : Nat) : List (Nat × α) → Option α
  | [] => none
  | p :: rest => if p.1 = k then some p.2 else lookupA k rest

/-- Drop the entries with key `k`; models the removal in
`HashMap::remove`. -/
def eraseA (k : Nat) : List (Nat × α) → List (Nat × α)
  | [] => []
  | p :: rest => if p.1 = k then eraseA k rest else p :: eraseA k rest

/-- `HashMap::insert` (replacing any entry under the same key). -/
def insertA (k : Nat) (v : α) (l : List (Nat × α)) : List (Nat × α) :=
  (k, v) :: eraseA k l

/-- `struct SubscriptionContext`: the subscription registry.  The two
`u64` counters are modelled as `Nat`; their increments cannot reach
`2^64` over any feasible number of subscribes, so wrap-around is not
modelled. -/
structure SubscriptionContext where
  next_sid : Nat
  next_uid : Nat
  subscription_map : List (Nat × SubscriptionM)
  uid_map : List (Nat × Nat)
deriving DecidableEq

/-- `SubscriptionContext::new()`. -/
def SubscriptionContext.new : SubscriptionContext := ⟨1, 1, [], []⟩

/-- `SubscriptionContext::get`. -/
def SubscriptionContext.get (ctx : SubscriptionContext) (sid : Nat) : Option SubscriptionM :=
  lookupA sid ctx.subscription_map

/-- `SubscriptionContext::insert`: allocate `sid = next_sid`,
`uid = next_uid`, bump both counters, register the subscription under
`sid` and the `uid → sid` mapping, return the sid. -/
def SubscriptionContext.insert (ctx : SubscriptionContext) (subscription : SubscriptionM) :
    Nat × SubscriptionContext :=
  let sid := ctx.next_sid
  let uid := ctx.next_uid
  (sid,
   { next_sid := ctx.next_sid + 1
     next_uid := ctx.next_uid + 1
     subscription_map := insertA sid subscription ctx.subscription_map
     uid_map := insertA uid sid ctx.uid_map })

/-- `SubscriptionContext::remove`: drop the sid entry from
`subscription_map` (only); report whether it was present.  `uid_map` is
left untouched, as in the source. -/
def SubscriptionContext.remove (ctx : SubscriptionContext) (sid : Nat) :
    Bool × SubscriptionContext :=
  ((lookupA sid ctx.subscription_map).isSome,
   { ctx with subscription_map := eraseA sid ctx.subscription_map })

/-- `SubscriptionContext::get_sid`. -/
def SubscriptionContext.get_sid (ctx : SubscriptionContext) (uid : Nat) : Option Nat :=
  lookupA uid ctx.uid_map

end NatsCore

namespace NatsCore

/-- `struct Message` as delivered to a subscriber. -/
structure MessageM where
  subject : List Nat
  reply : Option (List Nat)
  payload : List Nat
deriving DecidableEq

/-- One input to an iteration of the event loop `Connector::process`: the
branch of the `select!` that fired and what it produced.

The `receiverClosed` flag on the server branch models the observable
outcome of `subscription.sender.send(message).await` on the matching
bounded (capacity 16) tokio channel: the send returns `Err` exactly when
the receive side has been closed or dropped; a full channel with a live
receiver only suspends the send until capacity frees (or until the
receiver goes away, which again is the `receiverClosed = true` case).  The
flag is ignored for server operations other than `Message`. -/
inductive LoopIn where
  /-- `receiver.recv()` completed: `some op`, or `none` when every sender
  is dropped and the queue is drained -/
  | cmd : Option ClientOpM → LoopIn
  /-- `read_op` returned `Err(_)`; the error value itself is discarded by
  the `if let Ok(..)` in the source -/
  | srvErr : LoopIn
  /-- `read_op` returned `Ok(maybe_op)` -/
  | srv : Option ServerOpM → Bool → LoopIn

/-- One observable effect of an event-loop iteration. -/
inductive LoopEff where
  /-- `self.connection.write_op(op)` (see `writeOp` for its bytes) -/
  | wire : ClientOpM → LoopEff
  /-- an explicit `self.connection.stream.flush()` -/
  | wireFlush : LoopEff
  /-- the message was handed to the subscription's delivery endpoint -/
  | deliver : Nat → MessageM → LoopEff
deriving DecidableEq

/-- Result of one event-loop iteration: the registry afterwards, the
effects in order, and whether `process` returned (instead of looping). -/
structure StepRes where
  ctx : SubscriptionContext
  effs : List LoopEff
  exit : Bool
deriving DecidableEq

/-- One iteration of `Connector::process`.  Write errors are logged and
ignored in the command branch and cannot occur in the model (writes are
total), so every `write_op` call appears as a `wire` effect. -/
def processStep (ctx : SubscriptionContext) (ev : LoopIn) : StepRes :=
  match ev with
  | .cmd none =>
    -- every sender dropped: `break`, then the final flush after the loop
    ⟨ctx, [.wireFlush], true⟩
  | .cmd (some op) =>
    match op with
    | .unsubscribe id =>
      -- intercept Unsubscribe and replace the subscription uid with sid
      match ctx.get_sid id with
      | none => ⟨ctx, [], false⟩
      | some sid => ⟨(ctx.remove sid).2, [.wire (.unsubscribe sid)], false⟩
    | _ => ⟨ctx, [.wire op], false⟩
  | .srvErr =>
    -- `if let Ok(maybe_op) = result` does not match: nothing happens and
    -- the loop continues
    ⟨ctx, [], false⟩
  | .srv none _ =>
    -- end of stream: `return Ok(())` (directly, without the final flush)
    ⟨ctx, [], true⟩
  | .srv (some sop) receiverClosed =>
    match sop with
    | .ping => ⟨ctx, [.wire .pong], false⟩
    | .message sid subject reply payload =>
      match ctx.get sid with
      | none => ⟨ctx, [], false⟩
      | some _ =>
        if receiverClosed then
          ⟨(ctx.remove sid).2, [.wire (.unsubscribe sid), .wireFlush], false⟩
        else ⟨ctx, [.deliver sid ⟨subject, reply, payload⟩], false⟩
    | _ => ⟨ctx, [], false⟩

/-- An event of the running system, as seen by the shared registry: an
event-loop iteration, or a concurrent `Client::subscribe` call inserting a
fresh subscription under the registry lock (its SUB command reaches the
loop later as a `cmd` event). -/
inductive SysEv where
  | evt : LoopIn → SysEv
  | newSub : SysEv

/-- Run a sequence of system events from a registry state, collecting the
event-loop effects; a loop iteration that exits stops the run. -/
def runSys : SubscriptionContext → List SysEv → SubscriptionContext × List LoopEff
  | ctx, [] => (ctx, [])
  | ctx, .evt e :: rest =>
    let r := processStep ctx e
    if r.exit then (r.ctx, r.effs)
    else
      let t := runSys r.ctx rest
      (t.1, r.effs ++ t.2)
  | ctx, .newSub :: rest => runSys (ctx.insert ⟨⟩).2 rest

/-- A registry operation for exercising `SubscriptionContext` histories:
an `insert` (from `Client::subscribe`) or a `remove` (from the event
loop). -/
inductive RegOp where
  | ins : RegOp
  | rem : Nat → RegOp

/-- Run a sequence of registry operations, collecting the sid returned by
each insert, in order. -/
def runOps : SubscriptionContext → List RegOp → SubscriptionContext × List Nat
  | ctx, [] => (ctx, [])
  | ctx, .ins :: rest =>
    let p := ctx.insert ⟨⟩
    let r := runOps p.2 rest
    (r.1, p.1 :: r.2)
  | ctx, .rem sid :: rest => runOps (ctx.remove sid).2 rest

/-- Every key of `subscription_map` is below `next_sid` (true of every
reachable registry state: keys are only ever created by `insert`). -/
def wfB (ctx : SubscriptionContext) : Bool :=
  ctx.subscription_map.all (fun p => p.1 < ctx.next_sid)

/-- Outcome of a `Client` method for its caller: success, an error return,
or a panic of the calling task. -/
inductive CallRes (α : Type) where
  | ok : α → CallRes α
  | err : CallRes α
  | panicked : CallRes α
deriving DecidableEq

/-- `mpsc::Sender::send` on the command queue: fails exactly when the
receiver (the event loop) has terminated and been dropped.  `queueOpen`
says whether the receiver still exists; `some op` is a successful
enqueue. -/
def sendQ (queueOpen : Bool) (op : ClientOpM) : Option ClientOpM :=
  if queueOpen then some op else none

/-- `Client::publish`: enqueue `Publish`, propagating a send error with
`?`. -/
def clientPublish (queueOpen : Bool) (subject payload : List Nat) : CallRes Unit :=
  match sendQ queueOpen (.publish subject payload none) with
  | some _ => .ok ()
  | none => .err

/-- `Client::publish_with_reply`. -/
def clientPublishWithReply (queueOpen : Bool) (subject reply payload : List Nat) :
    CallRes Unit :=
  match sendQ queueOpen (.publish subject payload (some reply)) with
  | some _ => .ok ()
  | none => .err

/-- `Client::subscribe`: create the capacity-16 delivery channel, insert
into the registry under the lock, then `send(Subscribe).await.unwrap()` —
the `unwrap` panics when the command queue is closed.  On success returns
the updated registry and the sid (the Subscriber handle's uid). -/
def clientSubscribe (queueOpen : Bool) (ctx : SubscriptionContext) (subject : List Nat) :
    CallRes (SubscriptionContext × Nat) :=
  let p := ctx.insert ⟨⟩
  match sendQ queueOpen (.subscribe p.1 subject) with
  | some _ => .ok (p.2, p.1)
  | none => .panicked

/-- `Client::flush`: enqueue `Flush` with a fresh one-shot completion,
propagating a send error with `?`.  (When the enqueue succeeds the result
is whatever the event loop's `stream.flush()` reports back through the
one-shot; the queue-closed path is the one this model distinguishes.) -/
def clientFlush (queueOpen : Bool) : CallRes Unit :=
  match sendQ queueOpen .flushCmd with
  | some _ => .ok ()
  | none => .err

end NatsCore

namespace NatsCore

theorem lookupA_mem {α : Type} (k : Nat) (v : α) :
    ∀ l : List (Nat × α), lookupA k l = some v → (k, v) ∈ l := by
  intro l
  induction l with
  | nil => intro h; simp [lookupA] at h
  | cons p rest ih =>
    obtain ⟨a, b⟩ := p
    intro h
    by_cases hk : a = k
    · subst hk
      simp [lookupA] at h
      subst h
      exact List.mem_cons_self _ _
    · simp [lookupA, hk] at h
      exact List.mem_cons_of_mem _ (ih h)

theorem lookupA_eraseA_self {α : Type} (k : Nat) :
    ∀ l : List (Nat × α), lookupA k (eraseA k l) = none := by
  intro l
  induction l with
  | nil => simp [eraseA, lookupA]
  | cons p rest ih =>
    by_cases hk : p.1 = k
    · simp [eraseA, hk, ih]
    · simp [eraseA, hk, lookupA, ih]

theorem lookupA_eraseA_none {α : Type} (k k' : Nat) :
    ∀ l : List (Nat × α), lookupA k l = none → lookupA k (eraseA k' l) = none := by
  intro l
  induction l with
  | nil => intro _; simp [eraseA, lookupA]
  | cons p rest ih =>
    intro h
    by_cases hk : p.1 = k
    · simp [lookupA, hk] at h
    · simp [lookupA, hk] at h
      by_cases hk' : p.1 = k'
      · simp [eraseA, hk', ih h]
      · simp [eraseA, hk', lookupA, hk, ih h]

theorem lookupA_insertA_none {α : Type} (k k' : Nat) (v : α) (l : List (Nat × α))
    (hne : k' ≠ k) (h : lookupA k l = none) : lookupA k (insertA k' v l) = none := by
  simp [insertA, lookupA, hne, lookupA_eraseA_none k k' l h]

end NatsCore

namespace NatsCore

/-- Claim C10 of the specification: a buffer that does not start with any
of the five recognized tokens (`+OK\r\n`, `PING\r\n`, `PONG\r\n`,
`INFO `, `MSG `) makes `try_read_op` return `Ok(None)` — "need more
data" — with the buffer unconsumed; unrecognized input (such as an
`-ERR` line) is neither consumed nor rejected. -/
theorem claim_c10_unrecognized_needs_more (buffer : List Nat)
    (h1 : startsWith (strB "+OK\r\n") buffer = false)
    (h2 : startsWith (strB "PING\r\n") buffer = false)
    (h3 : startsWith (strB "PONG\r\n") buffer = false)
    (h4 : startsWith (strB "INFO ") buffer = false)
    (h5 : startsWith (strB "MSG ") buffer = false) :
    tryReadOp buffer = .ok none buffer := by
  unfold tryReadOp
  simp [h1, h2, h3, h4, h5]

/-- Witness for claim C10 at the concrete buffer `-ERR boom\r\n`. -/
theorem claim_c10_witness :
    startsWith (strB "+OK\r\n") (strB "-ERR boom\r\n") = false ∧
    startsWith (strB "PING\r\n") (strB "-ERR boom\r\n") = false ∧
    startsWith (strB "PONG\r\n") (strB "-ERR boom\r\n") = false ∧
    startsWith (strB "INFO ") (strB "-ERR boom\r\n") = false ∧
    startsWith (strB "MSG ") (strB "-ERR boom\r\n") = false ∧
    tryReadOp (strB "-ERR boom\r\n") = .ok none (strB "-ERR boom\r\n") :=
  ⟨by decide, by decide, by decide, by decide, by decide,
   claim_c10_unrecognized_needs_more (strB "-ERR boom\r\n")
     (by decide) (by decide) (by decide) (by decide) (by decide)⟩

/-- Claim C2 of the specification, evaluated on concrete buffers: the
malformed-integer, argument-count and INFO error cases do return errors,
but a complete MSG header line containing invalid UTF-8 makes
`try_read_op` panic (the `std::str::from_utf8(..).unwrap()` at the top of
the MSG branch), not return an error as the claim states. -/
theorem claim_c2_msg_utf8_panics :
    tryReadOp (strB "MSG " ++ [255] ++ strB "\r\n") = .panicked ∧
    tryReadOp (strB "INFO " ++ [255] ++ strB "\r\n") =
      .error .badUtf8 (strB "INFO " ++ [255] ++ strB "\r\n") ∧
    tryReadOp (strB "INFO \x7b\r\n") = .error .badJson (strB "INFO \x7b\r\n") ∧
    tryReadOp (strB "MSG foo\r\n") = .error .badMsgArgs (strB "MSG foo\r\n") ∧
    tryReadOp (strB "MSG foo bar 4\r\n") = .error .badInt (strB "MSG foo bar 4\r\n") ∧
    tryReadOp (strB "MSG foo 9 xx\r\n") = .error .badInt (strB "MSG foo 9 xx\r\n") :=
  ⟨by decide, by decide, by decide, by decide, by decide, by decide⟩

/-- Claim C5 of the specification, evaluated with the command queue closed
(the event loop has terminated): `publish`, `publish_with_reply` and
`flush` return errors as claimed, but `subscribe` panics on the
`send(..).await.unwrap()`, contradicting the claim that every one of the
four operations returns an error rather than panicking. -/
theorem claim_c5_subscribe_panics :
    clientPublish false (strB "foo") (strB "data") = .err ∧
    clientPublishWithReply false (strB "foo") (strB "inbox") (strB "data") = .err ∧
    clientFlush false = .err ∧
    clientSubscribe false SubscriptionContext.new (strB "foo") = .panicked := by
  decide

/-- Claim C1 of the specification, evaluated on the code: an iteration in
which `read_op` returns an I/O error leaves the registry untouched, writes
nothing, and continues the loop (`exit = false`) — the `if let Ok(maybe_op)
= result` in `Connector::process` silently discards the error, so the loop
does NOT terminate as the claim states. -/
theorem claim_c1_read_error_continues :
    processStep SubscriptionContext.new .srvErr =
      ⟨SubscriptionContext.new, [], false⟩ ∧
    ∀ ctx : SubscriptionContext, processStep ctx .srvErr = ⟨ctx, [], false⟩ :=
  ⟨by decide, fun _ => rfl⟩

/-- Counterexample to claim C7 as stated: `write_op` on `TryFlush` does
flush the buffered writer (flushing is all that the `TryFlush` arm does),
contradicting the claim that no flush follows TryFlush. -/
theorem claim_c7_counterexample : WEv.flush ∈ writeOp .tryFlush := by decide

/-- Claim C7 as amended: `write_op` flushes the buffered writer after
Subscribe, Ping, Pong, an explicit Flush — and also for TryFlush, whose
entire effect is the flush — and does not flush after Publish,
Unsubscribe, or Connect. -/
theorem claim_c7_flush_policy :
    (∀ sid subject, WEv.flush ∈ writeOp (.subscribe sid subject)) ∧
    WEv.flush ∈ writeOp .ping ∧
    WEv.flush ∈ writeOp .pong ∧
    WEv.flush ∈ writeOp .flushCmd ∧
    WEv.flush ∈ writeOp .tryFlush ∧
    (∀ subject payload respond, WEv.flush ∉ writeOp (.publish subject payload respond)) ∧
    (∀ id, WEv.flush ∉ writeOp (.unsubscribe id)) ∧
    (∀ ci, WEv.flush ∉ writeOp (.connect ci)) := by
  refine ⟨fun sid subject => ?_, by decide, by decide, by decide, by decide,
    fun subject payload respond => ?_, fun id => ?_, fun ci => ?_⟩
  · simp [writeOp]
  · cases respond <;> simp [writeOp]
  · simp [writeOp]
  · simp [writeOp]

end NatsCore

namespace NatsCore

theorem runOps_sids_bound :
    ∀ (ops : List RegOp) (ctx : SubscriptionContext),
      (∀ x ∈ (runOps ctx ops).2, ctx.next_sid ≤ x) ∧
      (runOps ctx ops).2.Pairwise (· < ·) := by
  intro ops
  induction ops with
  | nil => intro ctx; simp [runOps]
  | cons op rest ih =>
    intro ctx
    cases op with
    | ins =>
      have h := ih (ctx.insert ⟨⟩).2
      have hnext : (ctx.insert ⟨⟩).2.next_sid = ctx.next_sid + 1 := rfl
      rw [hnext] at h
      constructor
      · intro x hx
        simp only [runOps, List.mem_cons] at hx
        rcases hx with hx | hx
        · exact le_of_eq hx.symm
        · exact le_of_lt (Nat.lt_of_succ_le (h.1 x hx))
      · simp only [runOps, List.pairwise_cons]
        exact ⟨fun x hx => Nat.lt_of_succ_le (h.1 x hx), h.2⟩
    | rem sid =>
      have h := ih (ctx.remove sid).2
      have hnext : (ctx.remove sid).2.next_sid = ctx.next_sid := rfl
      rw [hnext] at h
      simpa only [runOps] using h

theorem runOps_next_eq :
    ∀ (ops : List RegOp) (ctx : SubscriptionContext),
      ctx.next_sid = ctx.next_uid →
      (runOps ctx ops).1.next_sid = (runOps ctx ops).1.next_uid := by
  intro ops
  induction ops with
  | nil => intro ctx h; simpa [runOps] using h
  | cons op rest ih =>
    intro ctx h
    cases op with
    | ins =>
      simp only [runOps]
      exact ih (ctx.insert ⟨⟩).2 (by simp [SubscriptionContext.insert, h])
    | rem sid =>
      simp only [runOps]
      exact ih (ctx.remove sid).2 (by simp [SubscriptionContext.remove, h])

/-- Claim C6 of the specification: starting from `SubscriptionContext::new`
(both counters at 1), each `insert` returns `sid = next_sid`, allocates
`uid = next_uid`, bumps both counters, and registers the subscription and
the `uid → sid` mapping together; on every state reachable by inserts and
removes the two counters stay equal (so the allocated sid equals the
allocated uid), and across any sequence of inserts and removes the
returned sids are strictly increasing and never repeat. -/
theorem claim_c6_sid_allocation :
    (∀ (ctx : SubscriptionContext) (s : SubscriptionM),
      (ctx.insert s).1 = ctx.next_sid ∧
      (ctx.insert s).2.next_sid = ctx.next_sid + 1 ∧
      (ctx.insert s).2.next_uid = ctx.next_uid + 1 ∧
      (ctx.insert s).2.get ctx.next_sid = some s ∧
      (ctx.insert s).2.get_sid ctx.next_uid = some ctx.next_sid) ∧
    (∀ ops : List RegOp,
      (runOps SubscriptionContext.new ops).1.next_sid =
        (runOps SubscriptionContext.new ops).1.next_uid) ∧
    (∀ (ops : List RegOp) (s : SubscriptionM),
      ((runOps SubscriptionContext.new ops).1.insert s).1 =
        (runOps SubscriptionContext.new ops).1.next_uid) ∧
    (∀ ops : List RegOp,
      (runOps SubscriptionContext.new ops).2.Pairwise (· < ·) ∧
      (runOps SubscriptionContext.new ops).2.Nodup) := by
  refine ⟨fun ctx s => ?_, fun ops => runOps_next_eq ops _ rfl, fun ops s => ?_, fun ops => ?_⟩
  · refine ⟨rfl, rfl, rfl, ?_, ?_⟩
    · simp [SubscriptionContext.insert, SubscriptionContext.get, insertA, lookupA]
    · simp [SubscriptionContext.insert, SubscriptionContext.get_sid, insertA, lookupA]
  · exact runOps_next_eq ops _ rfl
  · refine ⟨(runOps_sids_bound ops SubscriptionContext.new).2, ?_⟩
    exact ((runOps_sids_bound ops SubscriptionContext.new).2).imp
      (fun h => Nat.ne_of_lt h)

/-- Claim C8 of the specification: when the event loop dequeues
`Unsubscribe{id: uid}`, an unresolvable uid leaves the registry unchanged
and writes nothing; a resolvable uid removes the resolved sid's entry from
the subscription map and writes exactly one UNSUB frame carrying the sid
(the resolved value, not the uid). -/
theorem claim_c8_unsubscribe_command (ctx : SubscriptionContext) (uid : Nat) :
    (ctx.get_sid uid = none →
      processStep ctx (.cmd (some (.unsubscribe uid))) = ⟨ctx, [], false⟩) ∧
    (∀ sid, ctx.get_sid uid = some sid →
      processStep ctx (.cmd (some (.unsubscribe uid))) =
        ⟨(ctx.remove sid).2, [.wire (.unsubscribe sid)], false⟩) := by
  constructor
  · intro h
    simp [processStep, h]
  · intro sid h
    simp [processStep, h]

/-- Witness for claim C8: a registry holding sid 1 under uid 1 (the state
after one subscribe), and a fresh registry with no mapping for uid 5. -/
theorem claim_c8_witness :
    SubscriptionContext.get_sid ⟨2, 2, [(1, ⟨⟩)], [(1, 1)]⟩ 1 = some 1 ∧
    processStep ⟨2, 2, [(1, ⟨⟩)], [(1, 1)]⟩ (.cmd (some (.unsubscribe 1))) =
      ⟨(SubscriptionContext.remove ⟨2, 2, [(1, ⟨⟩)], [(1, 1)]⟩ 1).2,
       [.wire (.unsubscribe 1)], false⟩ ∧
    SubscriptionContext.get_sid SubscriptionContext.new 5 = none ∧
    processStep SubscriptionContext.new (.cmd (some (.unsubscribe 5))) =
      ⟨SubscriptionContext.new, [], false⟩ :=
  ⟨by decide,
   (claim_c8_unsubscribe_command ⟨2, 2, [(1, ⟨⟩)], [(1, 1)]⟩ 1).2 1 (by decide),
   by decide,
   (claim_c8_unsubscribe_command SubscriptionContext.new 5).1 (by decide)⟩

end NatsCore

namespace NatsCore

theorem wf_get_lt (ctx : SubscriptionContext) (sid : Nat) (s : SubscriptionM)
    (hwf : wfB ctx = true) (hget : ctx.get sid = some s) : sid < ctx.next_sid := by
  have hmem : (sid, s) ∈ ctx.subscription_map := lookupA_mem sid s _ hget
  have := (List.all_eq_true.mp hwf) _ hmem
  exact of_decide_eq_true this

theorem processStep_gone (ctx : SubscriptionContext) (ev : LoopIn) (sid : Nat)
    (h2 : ctx.get sid = none) :
    (processStep ctx ev).ctx.next_sid = ctx.next_sid ∧
    (processStep ctx ev).ctx.get sid = none ∧
    ∀ m, LoopEff.deliver sid m ∉ (processStep ctx ev).effs := by
  have h2' : lookupA sid ctx.subscription_map = none := h2
  cases ev with
  | cmd o =>
    cases o with
    | none => exact ⟨rfl, h2, by simp [processStep]⟩
    | some op =>
      cases op with
      | unsubscribe uid =>
        cases h : ctx.get_sid uid with
        | none => simp [processStep, h, h2]
        | some sid' =>
          refine ⟨by simp [processStep, h, SubscriptionContext.remove], ?_, ?_⟩
          · simp only [processStep, h]
            exact lookupA_eraseA_none sid sid' _ h2'
          · simp [processStep, h]
      | publish s p r => exact ⟨rfl, h2, by simp [processStep]⟩
      | subscribe s j => exact ⟨rfl, h2, by simp [processStep]⟩
      | ping => exact ⟨rfl, h2, by simp [processStep]⟩
      | pong => exact ⟨rfl, h2, by simp [processStep]⟩
      | flushCmd => exact ⟨rfl, h2, by simp [processStep]⟩
      | tryFlush => exact ⟨rfl, h2, by simp [processStep]⟩
      | connect ci => exact ⟨rfl, h2, by simp [processStep]⟩
  | srvErr => exact ⟨rfl, h2, by simp [processStep]⟩
  | srv o closed =>
    cases o with
    | none => exact ⟨rfl, h2, by simp [processStep]⟩
    | some sop =>
      cases sop with
      | ok => exact ⟨rfl, h2, by simp [processStep]⟩
      | info si => exact ⟨rfl, h2, by simp [processStep]⟩
      | ping => exact ⟨rfl, h2, by simp [processStep]⟩
      | pong => exact ⟨rfl, h2, by simp [processStep]⟩
      | message sid0 subj rep pay =>
        cases hg : ctx.get sid0 with
        | none => simp [processStep, hg, h2]
        | some s0 =>
          have hne : sid0 ≠ sid := by
            intro he
            rw [he, h2] at hg
            cases hg
          cases closed with
          | true =>
            refine ⟨by simp [processStep, hg, SubscriptionContext.remove], ?_, ?_⟩
            · simp only [processStep, hg, if_true]
              exact lookupA_eraseA_none sid sid0 _ h2'
            · simp [processStep, hg]
          | false =>
            refine ⟨by simp [processStep, hg], ?_, ?_⟩
            · simpa [processStep, hg] using h2
            · simp [processStep, hg]
              exact fun h => hne h.symm

theorem runSys_gone :
    ∀ (evs : List SysEv) (ctx : SubscriptionContext) (sid : Nat),
      sid < ctx.next_sid → ctx.get sid = none →
      ∀ m, LoopEff.deliver sid m ∉ (runSys ctx evs).2 := by
  intro evs
  induction evs with
  | nil => intro ctx sid _ _ m; simp [runSys]
  | cons e rest ih =>
    intro ctx sid h1 h2 m
    cases e with
    | evt lin =>
      have hg := processStep_gone ctx lin sid h2
      have hrun : runSys ctx (SysEv.evt lin :: rest) =
          (if (processStep ctx lin).exit
            then ((processStep ctx lin).ctx, (processStep ctx lin).effs)
            else ((runSys (processStep ctx lin).ctx rest).1,
                  (processStep ctx lin).effs ++ (runSys (processStep ctx lin).ctx rest).2)) := rfl
      rw [hrun]
      by_cases hex : (processStep ctx lin).exit
      · rw [if_pos hex]
        exact hg.2.2 m
      · rw [if_neg hex]
        intro hmem
        rcases List.mem_append.mp hmem with hmem | hmem
        · exact hg.2.2 m hmem
        · exact ih (processStep ctx lin).ctx sid (hg.1 ▸ h1) hg.2.1 m hmem
    | newSub =>
      simp only [runSys]
      refine ih (ctx.insert ⟨⟩).2 sid ?_ ?_ m
      · have : (ctx.insert ⟨⟩).2.next_sid = ctx.next_sid + 1 := rfl
        omega
      · have hne : ctx.next_sid ≠ sid := by omega
        exact lookupA_insertA_none sid ctx.next_sid ⟨⟩ _ hne h2

/-- Counterexample to claim C3 as stated: a message arrives for a
registered sid whose delivery endpoint is NOT closed.  The `receiverClosed
= false` delivery event covers in particular a full endpoint with a live
receiver: `subscription.sender.send(message).await` on a full tokio
channel suspends until capacity frees and returns `Err` only when the
receive side is gone, so fullness alone never takes the error branch.  The
iteration delivers the message, removes nothing, and writes no UNSUB —
contradicting the claim that a full endpoint triggers removal and
UNSUB. -/
theorem claim_c3_counterexample :
    SubscriptionContext.get ⟨2, 2, [(1, ⟨⟩)], [(1, 1)]⟩ 1 = some ⟨⟩ ∧
    processStep ⟨2, 2, [(1, ⟨⟩)], [(1, 1)]⟩
        (.srv (some (.message 1 (strB "foo") none (strB "data"))) false) =
      ⟨⟨2, 2, [(1, ⟨⟩)], [(1, 1)]⟩,
       [.deliver 1 ⟨strB "foo", none, strB "data"⟩], false⟩ := by
  constructor
  · decide
  · decide

/-- Claim C3 as amended: when the event loop receives a Message for a sid
present in the registry whose delivery endpoint's receive side has been
closed (a full but still-open endpoint merely delays delivery and is not
cut off), the iteration removes that sid from the subscription map, writes
exactly one UNSUB frame carrying that sid followed by a flush, and keeps
looping; afterwards no message for that sid is ever delivered again, over
any continuation of loop iterations interleaved with concurrent
subscribes. -/
theorem claim_c3_closed_endpoint_unsubscribes
    (ctx : SubscriptionContext) (sid : Nat) (s : SubscriptionM)
    (subject payload : List Nat) (reply : Option (List Nat)) (evs : List SysEv)
    (hwf : wfB ctx = true) (hget : ctx.get sid = some s) :
    processStep ctx (.srv (some (.message sid subject reply payload)) true) =
      ⟨(ctx.remove sid).2, [.wire (.unsubscribe sid), .wireFlush], false⟩ ∧
    ∀ m, LoopEff.deliver sid m ∉ (runSys (ctx.remove sid).2 evs).2 := by
  constructor
  · simp [processStep, hget]
  · intro m
    refine runSys_gone evs (ctx.remove sid).2 sid ?_ ?_ m
    · have : (ctx.remove sid).2.next_sid = ctx.next_sid := rfl
      rw [this]
      exact wf_get_lt ctx sid s hwf hget
    · exact lookupA_eraseA_self sid _

/-- Witness for the amended claim C3: the registry after one subscribe
(sid 1), a closed-endpoint delivery for sid 1, and a continuation that
subscribes afresh and sees another message for sid 1. -/
theorem claim_c3_witness :
    wfB ⟨2, 2, [(1, ⟨⟩)], [(1, 1)]⟩ = true ∧
    SubscriptionContext.get ⟨2, 2, [(1, ⟨⟩)], [(1, 1)]⟩ 1 = some ⟨⟩ ∧
    (processStep ⟨2, 2, [(1, ⟨⟩)], [(1, 1)]⟩
        (.srv (some (.message 1 (strB "s") none (strB "p"))) true) =
      ⟨(SubscriptionContext.remove ⟨2, 2, [(1, ⟨⟩)], [(1, 1)]⟩ 1).2,
       [.wire (.unsubscribe 1), .wireFlush], false⟩ ∧
     ∀ m, LoopEff.deliver 1 m ∉
       (runSys (SubscriptionContext.remove ⟨2, 2, [(1, ⟨⟩)], [(1, 1)]⟩ 1).2
         [.newSub, .evt (.srv (some (.message 1 (strB "s") none (strB "p"))) false)]).2) :=
  ⟨by decide, by decide,
   claim_c3_closed_endpoint_unsubscribes ⟨2, 2, [(1, ⟨⟩)], [(1, 1)]⟩ 1 ⟨⟩
     (strB "s") (strB "p") none
     [.newSub, .evt (.srv (some (.message 1 (strB "s") none (strB "p"))) false)]
     (by decide) (by decide)⟩

end NatsCore

namespace NatsCore

/-- Claim C9 of the specification: `read_op` returns end-of-stream
(`Ok(None)`) exactly when a socket read yields zero bytes while the parse
buffer is empty, and a `ConnectionReset` error exactly when a read yields
zero bytes while a partial frame is still buffered.  The first conjunct is
the forward direction at the moment of the zero-byte read; the other two
say the two outcomes arise from no other source: each implies that some
read returned zero bytes (chunk `i` is empty) with the buffer accumulated
up to that point (`buffer ++ flatten of the earlier chunks`) empty,
respectively non-empty. -/
theorem claim_c9_zero_read_semantics :
    (∀ (buffer : List Nat) (rest : List (List Nat)),
      tryReadOp buffer = .ok none buffer →
      readOp buffer ([] :: rest) =
        if buffer = [] then ReadRes.eof else ReadRes.connReset) ∧
    (∀ (buffer : List Nat) (chunks : List (List Nat)),
      readOp buffer chunks = .eof →
      ∃ i, chunks[i]? = some [] ∧ buffer ++ (chunks.take i).flatten = []) ∧
    (∀ (buffer : List Nat) (chunks : List (List Nat)),
      readOp buffer chunks = .connReset →
      ∃ i, chunks[i]? = some [] ∧ buffer ++ (chunks.take i).flatten ≠ []) := by
  refine ⟨?_, ?_, ?_⟩
  · intro buffer rest h
    unfold readOp
    rw [h]
    simp
  · intro buffer chunks
    induction chunks generalizing buffer with
    | nil =>
      intro h
      unfold readOp at h
      split at h
      · cases h
      · cases h
      · cases h
      · cases h
    | cons c rest ih =>
      intro h
      unfold readOp at h
      split at h
      · cases h
      · cases h
      · cases h
      · by_cases hc : c = []
        · rw [if_pos hc] at h
          by_cases hb : buffer = []
          · refine ⟨0, ?_, ?_⟩
            · simp [hc]
            · simp [hb]
          · rw [if_neg hb] at h
            cases h
        · rw [if_neg hc] at h
          obtain ⟨i, h1, h2⟩ := ih (buffer ++ c) h
          refine ⟨i + 1, by simpa using h1, ?_⟩
          simpa [List.append_assoc] using h2
  · intro buffer chunks
    induction chunks generalizing buffer with
    | nil =>
      intro h
      unfold readOp at h
      split at h
      · cases h
      · cases h
      · cases h
      · cases h
    | cons c rest ih =>
      intro h
      unfold readOp at h
      split at h
      · cases h
      · cases h
      · cases h
      · by_cases hc : c = []
        · rw [if_pos hc] at h
          by_cases hb : buffer = []
          · rw [if_pos hb] at h
            cases h
          · refine ⟨0, ?_, ?_⟩
            · simp [hc]
            · simp [hb]
        · rw [if_neg hc] at h
          obtain ⟨i, h1, h2⟩ := ih (buffer ++ c) h
          refine ⟨i + 1, by simpa using h1, ?_⟩
          simpa [List.append_assoc] using h2

/-- Witness for claim C9: zero-byte reads on an empty and on a non-empty
parse buffer. -/
theorem claim_c9_witness :
    (readOp [] ([] :: []) =
      if ([] : List Nat) = [] then ReadRes.eof else ReadRes.connReset) ∧
    (∃ i, [([] : List Nat)][i]? = some [] ∧
      [] ++ (([([] : List Nat)].take i)).flatten = ([] : List Nat)) ∧
    (∃ i, [([] : List Nat)][i]? = some [] ∧
      [65] ++ (([([] : List Nat)].take i)).flatten ≠ ([] : List Nat)) :=
  ⟨claim_c9_zero_read_semantics.1 [] [] (by decide),
   claim_c9_zero_read_semantics.2.1 [] [[]] (by decide),
   claim_c9_zero_read_semantics.2.2 [65] [[]] (by decide)⟩

end NatsCore

namespace NatsCore

theorem crlfFree_cons_of_ne (a : Nat) (l : List Nat) (ha : a ≠ 13)
    (h : crlfFree l = true) : crlfFree (a :: l) = true := by
  cases l with
  | nil => rfl
  | cons b t =>
    have hcond : ¬(a = 13 ∧ b = 10) := fun hh => ha hh.1
    simpa [crlfFree, hcond] using h

theorem findCrlf_append :
    ∀ (l r : List Nat), crlfFree l = true → findCrlf (l ++ 13 :: 10 :: r) = some l.length := by
  intro l
  induction l with
  | nil => intro r _; simp [findCrlf]
  | cons a t ih =>
    intro r h
    cases t with
    | nil => simp [findCrlf]
    | cons b t2 =>
      simp only [crlfFree] at h
      by_cases hcond : a = 13 ∧ b = 10
      · rw [if_pos hcond] at h; cases h
      · rw [if_neg hcond] at h
        have ihr := ih r h
        simp only [List.cons_append]
        simp only [List.cons_append] at ihr
        simp only [findCrlf]
        rw [if_neg hcond, ihr]
        simp

/-- Claim C4 of the specification: for a buffer opening with a well-formed
MSG header line (`hdr` is the CRLF-free text between `MSG ` and the first
`\r\n`, parsing to a subject, sid, optional reply and declared payload
length `n`), `try_read_op` returns the parsed Message exactly when at
least `n + 2` bytes (payload plus trailing `\r\n`) follow the header line:
when they do, it consumes the header line, `n` payload bytes and the
trailing `\r\n`, leaving `rest.drop (n + 2)` buffered; when they do not,
it returns "need more data" with the buffer unconsumed. -/
theorem claim_c4_msg_payload_boundary
    (hdr rest subject : List Nat) (sid n : Nat) (reply : Option (List Nat))
    (hfree : crlfFree hdr = true)
    (hparse : parseMsgLine hdr = .parsed subject sid reply n) :
    (n + 2 ≤ rest.length →
      tryReadOp (strB "MSG " ++ hdr ++ 13 :: 10 :: rest) =
        .ok (some (.message sid subject reply (rest.take n), rest.drop (n + 2)))
          (rest.drop (n + 2))) ∧
    (rest.length < n + 2 →
      tryReadOp (strB "MSG " ++ hdr ++ 13 :: 10 :: rest) =
        .ok none (strB "MSG " ++ hdr ++ 13 :: 10 :: rest)) := by
  have hms : strB "MSG " = [77, 83, 71, 32] := rfl
  have hb : strB "MSG " ++ hdr ++ 13 :: 10 :: rest
      = (77 :: 83 :: 71 :: 32 :: hdr) ++ 13 :: 10 :: rest := by
    simp [hms]
  have h1 : startsWith (strB "+OK\r\n") (strB "MSG " ++ hdr ++ 13 :: 10 :: rest) = false := rfl
  have h2 : startsWith (strB "PING\r\n") (strB "MSG " ++ hdr ++ 13 :: 10 :: rest) = false := rfl
  have h3 : startsWith (strB "PONG\r\n") (strB "MSG " ++ hdr ++ 13 :: 10 :: rest) = false := rfl
  have h4 : startsWith (strB "INFO ") (strB "MSG " ++ hdr ++ 13 :: 10 :: rest) = false := rfl
  have h5 : startsWith (strB "MSG ") (strB "MSG " ++ hdr ++ 13 :: 10 :: rest) = true := rfl
  have hfree4 : crlfFree (77 :: 83 :: 71 :: 32 :: hdr) = true :=
    crlfFree_cons_of_ne 77 _ (by decide)
      (crlfFree_cons_of_ne 83 _ (by decide)
        (crlfFree_cons_of_ne 71 _ (by decide)
          (crlfFree_cons_of_ne 32 _ (by decide) hfree)))
  have hfind : findCrlf (strB "MSG " ++ hdr ++ 13 :: 10 :: rest) = some (hdr.length + 4) := by
    rw [hb, findCrlf_append _ rest hfree4]
    simp
  have hslice : ((strB "MSG " ++ hdr ++ 13 :: 10 :: rest).take (hdr.length + 4)).drop 4 = hdr := by
    rw [hb, List.take_left' (by simp)]
    rfl
  have hlen : (strB "MSG " ++ hdr ++ 13 :: 10 :: rest).length = hdr.length + rest.length + 6 := by
    rw [hb]
    simp
    omega
  have hb2 : strB "MSG " ++ hdr ++ 13 :: 10 :: rest
      = ((77 :: 83 :: 71 :: 32 :: hdr) ++ [13, 10]) ++ rest := by
    rw [hms]
    simp
  have hdrop : (strB "MSG " ++ hdr ++ 13 :: 10 :: rest).drop (hdr.length + 4 + 2) = rest := by
    rw [hb2, List.drop_left' (by simp)]
  refine ⟨fun hle => ?_, fun hlt => ?_⟩
  · have hcond : hdr.length + 4 + n + 4 ≤ (strB "MSG " ++ hdr ++ 13 :: 10 :: rest).length := by
      rw [hlen]; omega
    unfold tryReadOp
    rw [h1, h2, h3, h4, h5]
    simp only [hfind]
    simp only [hslice, hparse]
    rw [if_pos hcond]
    rw [hdrop]
    simp
  · have hcond : ¬(hdr.length + 4 + n + 4 ≤ (strB "MSG " ++ hdr ++ 13 :: 10 :: rest).length) := by
      rw [hlen]; omega
    unfold tryReadOp
    rw [h1, h2, h3, h4, h5]
    simp only [hfind]
    simp only [hslice, hparse]
    rw [if_neg hcond]
    simp

/-- Witness for claim C4: the header line `MSG foo 9 4` followed once by a
complete payload (`data\r\nX`, one spare byte left buffered) and once by
an incomplete one (`data\r`). -/
theorem claim_c4_witness :
    crlfFree (strB "foo 9 4") = true ∧
    parseMsgLine (strB "foo 9 4") = .parsed (strB "foo") 9 none 4 ∧
    tryReadOp (strB "MSG " ++ strB "foo 9 4" ++ 13 :: 10 :: strB "data\r\nX") =
      .ok (some (.message 9 (strB "foo") none ((strB "data\r\nX").take 4),
          (strB "data\r\nX").drop (4 + 2))) ((strB "data\r\nX").drop (4 + 2)) ∧
    tryReadOp (strB "MSG " ++ strB "foo 9 4" ++ 13 :: 10 :: strB "data\r") =
      .ok none (strB "MSG " ++ strB "foo 9 4" ++ 13 :: 10 :: strB "data\r") :=
  ⟨by decide, by decide,
   (claim_c4_msg_payload_boundary (strB "foo 9 4") (strB "data\r\nX") (strB "foo") 9 4 none
     (by decide) (by decide)).1 (by decide),
   (claim_c4_msg_payload_boundary (strB "foo 9 4") (strB "data\r") (strB "foo") 9 4 none
     (by decide) (by decide)).2 (by decide)⟩

end NatsCore
